import Mathlib

/-!
Verification development for the MAHORAGA trading agent.

Shallow embedding of the decision core of the TradingAgentDO durable object
(signal research gating, research caching, position management with
take-profit / stop-loss / LLM override, buy sizing and the single-buy loop),
of the per-cycle RateLimiter, and of the OpenAIProvider retry loop.

Conventions of the embedding:
- JS numbers that carry money, sentiment or confidence become Rat.
- Timestamps are Int milliseconds (JS Date.now()).
- External effects (broker orders, LLM completions) are passed in as
  explicit outcome parameters; emitted effects are returned as event lists.
- The JS object this.state.signalResearch (a string-keyed record) becomes an
  association list with JS record semantics: assignment replaces in place or
  appends, delete removes the key.
- Array.prototype.sort with comparator (a, b) => b.key - a.key becomes
  List.insertionSort with the relation fun a b => b.key <= a.key.  The
  theorems below never depend on the order of ties.
-/

namespace Mahoraga

/-- AgentConfig from the TradingAgentDO module. -/
structure AgentConfig where
  data_poll_interval_ms : ℤ
  analyst_interval_ms : ℤ
  max_position_value : ℚ
  max_positions : ℕ
  min_sentiment_score : ℚ
  min_analyst_confidence : ℚ
  min_volume : ℕ
  take_profit_pct : ℚ
  stop_loss_pct : ℚ
  position_size_pct_of_cash : ℚ
  llm_model : String
  deriving DecidableEq, Repr

/-- DEFAULT_CONFIG from the TradingAgentDO module. -/
def DEFAULT_CONFIG : AgentConfig where
  data_poll_interval_ms := 60000
  analyst_interval_ms := 120000
  max_position_value := 2000
  max_positions := 3
  min_sentiment_score := 0.3
  min_analyst_confidence := 0.6
  min_volume := 10
  take_profit_pct := 8
  stop_loss_pct := 4
  position_size_pct_of_cash := 20
  llm_model := "gpt-4o-mini"

/-- Signal produced by the StockTwits gatherer. -/
structure Signal where
  symbol : String
  source : String
  sentiment : ℚ
  volume : ℕ
  bullish : ℕ
  bearish : ℕ
  reason : String
  deriving DecidableEq, Repr

/-- Verdict field of a ResearchResult. -/
inductive Verdict where
  | BUY
  | SKIP
  | WAIT
  deriving DecidableEq, Repr

/-- ResearchResult cached per symbol in state.signalResearch. -/
structure ResearchResult where
  symbol : String
  verdict : Verdict
  confidence : ℚ
  reasoning : String
  red_flags : List String
  catalysts : List String
  timestamp : ℤ
  deriving DecidableEq, Repr

/-- The state.signalResearch record, keyed by symbol, embedded as an
association list in key-insertion order (JS string-keyed record semantics). -/
def ResearchMap : Type := List (String × ResearchResult)

instance : DecidableEq ResearchMap := by
  unfold ResearchMap
  infer_instance

/-- Reading this.state.signalResearch[symbol]. -/
def rlookup (m : ResearchMap) (s : String) : Option ResearchResult :=
  match m with
  | [] => none
  | e :: rest => if e.1 = s then some e.2 else rlookup rest s

/-- Writing this.state.signalResearch[symbol] = r : replace in place if the
key exists, append otherwise. -/
def rset (m : ResearchMap) (s : String) (r : ResearchResult) : ResearchMap :=
  match m with
  | [] => [(s, r)]
  | e :: rest => if e.1 = s then (s, r) :: rest else e :: rset rest s r

/-- The statement delete this.state.signalResearch[symbol]. -/
def rdel (m : ResearchMap) (s : String) : ResearchMap :=
  match m with
  | [] => []
  | e :: rest => if e.1 = s then rdel rest s else e :: rdel rest s

theorem rlookup_rset_self (m : ResearchMap) (s : String) (r : ResearchResult) :
    rlookup (rset m s r) s = some r := by
  induction m with
  | nil => simp [rset, rlookup]
  | cons e rest ih =>
    by_cases h : e.1 = s
    · simp [rset, h, rlookup]
    · simp [rset, h, rlookup, ih]

theorem rlookup_rdel_self (m : ResearchMap) (s : String) :
    rlookup (rdel m s) s = none := by
  induction m with
  | nil => simp [rdel, rlookup]
  | cons e rest ih =>
    by_cases h : e.1 = s
    · simp [rdel, h, ih]
    · simp [rdel, h, rlookup, ih]

theorem rlookup_rdel_ne (m : ResearchMap) (s t : String) (hne : t ≠ s) :
    rlookup (rdel m s) t = rlookup m t := by
  induction m with
  | nil => rfl
  | cons e rest ih =>
    by_cases h : e.1 = s
    · have h2 : ¬ e.1 = t := fun h3 => hne (h3.symm.trans h)
      simp only [rdel, rlookup, if_pos h, if_neg h2, ih]
    · by_cases h2 : e.1 = t
      · simp only [rdel, rlookup, if_neg h, if_pos h2]
      · simp only [rdel, rlookup, if_neg h, if_neg h2, ih]

/-- Position snapshot from the trading provider (getPositions). -/
structure Position where
  symbol : String
  qty : ℚ
  market_value : ℚ
  unrealized_pl : ℚ
  current_price : ℚ
  cost_basis : ℚ
  deriving DecidableEq, Repr

/-- Account snapshot from the trading provider (getAccount). -/
structure Account where
  cash : ℚ
  equity : ℚ
  buying_power : ℚ
  deriving DecidableEq, Repr

/-- Action field of an analyzePosition result. -/
inductive PosAction where
  | HOLD
  | SELL
  deriving DecidableEq, Repr

/-- Parsed analyzePosition output (null when the LLM call failed). -/
structure PosAnalysis where
  action : PosAction
  confidence : ℚ
  reasoning : String
  deriving DecidableEq, Repr

/-- The unrealized P/L percentage computed at the top of the position loop in
runTradingLogic: (pos.unrealized_pl / (pos.market_value - pos.unrealized_pl)) * 100.

Rat division by zero yields 0 where JS yields Infinity or NaN; every theorem
below either quantifies over the computed value or fixes positions whose
denominator is nonzero, so the divergence is never exercised. -/
def plPct (pos : Position) : ℚ :=
  pos.unrealized_pl / (pos.market_value - pos.unrealized_pl) * 100

/-- Why executeSell was invoked for a position. -/
inductive SellWhy where
  | takeProfit
  | stopLoss
  | llmOverride
  deriving DecidableEq, Repr

/-- Externally visible effects of one iteration of the position loop. -/
inductive PosEvent where
  | llmCall (symbol : String)
  | sell (symbol : String) (why : SellWhy)
  deriving DecidableEq, Repr

/-- One iteration of the position loop of runTradingLogic, as the list of
effects it emits.  openaiOn mirrors the this.openai null check; analyses gives
the parsed analyzePosition result per symbol (none = LLM error or null). -/
def positionStep (cfg : AgentConfig) (openaiOn : Bool)
    (analyses : String → Option PosAnalysis) (pos : Position) : List PosEvent :=
  let pl := plPct pos
  if cfg.take_profit_pct ≤ pl then
    [PosEvent.sell pos.symbol SellWhy.takeProfit]
  else if pl ≤ -cfg.stop_loss_pct then
    [PosEvent.sell pos.symbol SellWhy.stopLoss]
  else if openaiOn then
    PosEvent.llmCall pos.symbol ::
      (match analyses pos.symbol with
       | some a =>
         if a.action = PosAction.SELL ∧ 0.7 ≤ a.confidence then
           [PosEvent.sell pos.symbol SellWhy.llmOverride]
         else []
       | none => [])
  else []

/-- The position loop decision as a function of the position's hold duration.
The source computes the decision from the position snapshot and the LLM
analysis alone; a hold duration is not among its inputs, which this wrapper
makes explicit so that claims quantifying over hold time can be stated. -/
def positionStepAtHold (_holdMinutes : ℚ) (cfg : AgentConfig) (openaiOn : Bool)
    (analyses : String → Option PosAnalysis) (pos : Position) : List PosEvent :=
  positionStep cfg openaiOn analyses pos

/-- Outcome of executeBuy: either the buy was skipped as too small, or a
market order with the given notional was submitted and succeeded or failed. -/
inductive BuyOutcome where
  | skipped
  | ordered (notional : ℚ) (success : Bool)
  deriving DecidableEq, Repr

/-- The boolean executeBuy returns to its caller. -/
def BuyOutcome.result : BuyOutcome → Bool
  | BuyOutcome.skipped => false
  | BuyOutcome.ordered _ ok => ok

/-- Whether executeBuy submitted an order at all. -/
def BuyOutcome.issued : BuyOutcome → Bool
  | BuyOutcome.skipped => false
  | BuyOutcome.ordered _ _ => true

/-- Math.round(x * 100) / 100 on a nonnegative amount (JS rounds half up). -/
def roundCents (x : ℚ) : ℚ :=
  (⌊x * 100 + 1 / 2⌋ : ℚ) / 100

/-- executeBuy from the TradingAgentDO module.  orderOk tells whether the
broker accepts the createOrder call. -/
def executeBuy (cfg : AgentConfig) (account : Account) (confidence : ℚ)
    (orderOk : Bool) : BuyOutcome :=
  let sizePct := cfg.position_size_pct_of_cash
  let positionSize := min (account.cash * (sizePct / 100) * confidence) cfg.max_position_value
  if positionSize < 100 then BuyOutcome.skipped
  else BuyOutcome.ordered (roundCents positionSize) orderOk

/-- The position-size formula as the spec words it, for comparison with the
source: min(cash × min(20, position_size_pct_of_cash)/100 × confidence,
max_position_value).  The source has no inner min with 20. -/
def specPositionSize (cash sizePct confidence maxPositionValue : ℚ) : ℚ :=
  min (cash * (min 20 sizePct / 100) * confidence) maxPositionValue

/-- Outcome of executeSell: the boolean returned to the caller, the research
cache afterwards, and how many closePosition calls were made. -/
structure SellOutcome where
  returned : Bool
  research : ResearchMap
  closeAttempts : ℕ
  deriving DecidableEq

/-- executeSell from the TradingAgentDO module.  closeOk tells whether the
broker accepts the closePosition call (false = the call throws). -/
def executeSell (research : ResearchMap) (symbol : String) (closeOk : Bool) :
    SellOutcome :=
  if closeOk then
    { returned := true, research := rdel research symbol, closeAttempts := 1 }
  else
    { returned := false, research := research, closeAttempts := 1 }

/-- The sort relation written in the source as (a, b) => b.sentiment - a.sentiment. -/
def sentGE (a b : Signal) : Prop := b.sentiment ≤ a.sentiment

instance : DecidableRel sentGE :=
  fun a b => inferInstanceAs (Decidable (b.sentiment ≤ a.sentiment))

instance : IsTotal Signal sentGE := ⟨fun a b => le_total b.sentiment a.sentiment⟩

instance : IsTrans Signal sentGE := ⟨fun _ _ _ h h2 => le_trans h2 h⟩

/-- The candidate selection in researchTopSignals: filter the signal cache at
min_sentiment_score (inclusive), sort by sentiment descending, take the limit. -/
def researchCandidates (cfg : AgentConfig) (signalCache : List Signal)
    (limit : ℕ) : List Signal :=
  (List.insertionSort sentGE
    (signalCache.filter (fun s => decide (cfg.min_sentiment_score ≤ s.sentiment)))).take limit

/-- The call site in runDataGatherer: this.researchTopSignals(5). -/
def runDataGathererBatch (cfg : AgentConfig) (signalCache : List Signal) : List Signal :=
  researchCandidates cfg signalCache 5

/-- The per-signal research gate as the spec words it, for comparison with the
source: signals not currently held, raw sentiment at least
min_sentiment_score, sorted by sentiment descending, capped at 10. -/
def specResearchGate (held : List String) (cfg : AgentConfig)
    (signalCache : List Signal) : List Signal :=
  (List.insertionSort sentGE
    (signalCache.filter
      (fun s => decide (s.symbol ∉ held ∧ cfg.min_sentiment_score ≤ s.sentiment)))).take 10

/-- CACHE_TTL_MS from researchSignal. -/
def CACHE_TTL_MS : ℤ := 300000

/-- Parsed LLM analysis of a signal (the JSON body researchSignal expects). -/
structure LLMAnalysis where
  verdict : Verdict
  confidence : ℚ
  reasoning : String
  red_flags : List String
  catalysts : List String
  deriving DecidableEq, Repr

/-- The ResearchResult researchSignal builds from a parsed analysis,
stamped with Date.now(). -/
def mkResearchResult (sig : Signal) (a : LLMAnalysis) (now : ℤ) : ResearchResult :=
  { symbol := sig.symbol
    verdict := a.verdict
    confidence := a.confidence
    reasoning := a.reasoning
    red_flags := a.red_flags
    catalysts := a.catalysts
    timestamp := now }

/-- Outcome of researchSignal: the returned value, the research cache
afterwards, and whether an LLM completion was requested. -/
structure ResearchOutcome where
  result : Option ResearchResult
  research : ResearchMap
  llmCalled : Bool
  deriving DecidableEq

/-- The cache-miss path of researchSignal: issue the LLM call; on success
write the result into the cache, on failure (thrown or unparsable) log and
return null with the cache unchanged. -/
def researchMiss (research : ResearchMap) (sig : Signal) (now : ℤ)
    (llm : Option LLMAnalysis) : ResearchOutcome :=
  match llm with
  | some a =>
    let r := mkResearchResult sig a now
    { result := some r, research := rset research sig.symbol r, llmCalled := true }
  | none => { result := none, research := research, llmCalled := true }

/-- researchSignal from the TradingAgentDO module.  openaiOn mirrors the
this.openai null check; llm is the outcome of the completion call on a miss. -/
def researchSignal (openaiOn : Bool) (research : ResearchMap) (sig : Signal)
    (now : ℤ) (llm : Option LLMAnalysis) : ResearchOutcome :=
  if openaiOn = false then
    { result := none, research := research, llmCalled := false }
  else
    match rlookup research sig.symbol with
    | some cached =>
      if now - cached.timestamp < CACHE_TTL_MS then
        { result := some cached, research := research, llmCalled := false }
      else researchMiss research sig now llm
    | none => researchMiss research sig now llm

/-- The sort relation written in the source as (a, b) => b.confidence - a.confidence. -/
def confGE (a b : ResearchResult) : Prop := b.confidence ≤ a.confidence

instance : DecidableRel confGE :=
  fun a b => inferInstanceAs (Decidable (b.confidence ≤ a.confidence))

instance : IsTotal ResearchResult confGE := ⟨fun a b => le_total b.confidence a.confidence⟩

instance : IsTrans ResearchResult confGE := ⟨fun _ _ _ h h2 => le_trans h2 h⟩

/-- The buyOpportunities pipeline in runTradingLogic: cached research results
with verdict BUY, confidence at least min_analyst_confidence, symbol not
held, younger than 600000 ms, sorted by confidence descending. -/
def buyOpportunities (cfg : AgentConfig) (research : List ResearchResult)
    (held : List String) (now : ℤ) : List ResearchResult :=
  List.insertionSort confGE
    ((((research.filter (fun r => decide (r.verdict = Verdict.BUY))).filter
        (fun r => decide (cfg.min_analyst_confidence ≤ r.confidence))).filter
        (fun r => decide (r.symbol ∉ held))).filter
        (fun r => decide (now - r.timestamp < 600000)))

/-- The buy half of runTradingLogic: the early return when max_positions is
reached, then one pass over buyOpportunities.slice(0, 1), each iteration
calling executeBuy.  Returns the per-symbol buy outcomes. -/
def tradingBuyPhase (cfg : AgentConfig) (research : List ResearchResult)
    (held : List String) (now : ℤ) (positionsCount : ℕ) (account : Account)
    (orderOk : String → Bool) : List (String × BuyOutcome) :=
  if cfg.max_positions ≤ positionsCount then []
  else
    ((buyOpportunities cfg research held now).take 1).map
      (fun o => (o.symbol, executeBuy cfg account o.confidence (orderOk o.symbol)))

/-- RateLimiter from src/lib/rate-limiter.ts: per-provider call counts
against per-provider budgets. -/
structure RateLimiter where
  counts : String → ℕ
  budgets : String → Option ℕ

/-- RATE_LIMIT_BUDGETS from src/lib/rate-limiter.ts. -/
def RATE_LIMIT_BUDGETS : String → Option ℕ := fun provider =>
  if provider = "finnhub" then some 30
  else if provider = "fmp" then some 10
  else if provider = "quiver" then some 20
  else if provider = "alpaca" then some 50
  else none

/-- The constructor: all counts start at zero. -/
def RateLimiter.init (budgets : String → Option ℕ) : RateLimiter :=
  { counts := fun _ => 0, budgets := budgets }

/-- RateLimiter.record. -/
def RateLimiter.record (rl : RateLimiter) (provider : String) : RateLimiter :=
  { rl with counts := fun q => if q = provider then rl.counts provider + 1 else rl.counts q }

/-- RateLimiter.getCount. -/
def RateLimiter.getCount (rl : RateLimiter) (provider : String) : ℕ :=
  rl.counts provider

/-- RateLimiter.getRemaining: max(0, budget - count), with 999 for a provider
without a configured budget.  Truncated Nat subtraction is the max with 0. -/
def RateLimiter.getRemaining (rl : RateLimiter) (provider : String) : ℕ :=
  ((rl.budgets provider).getD 999) - rl.counts provider

/-- RateLimiter.consume: false without recording when no budget remains,
otherwise record the call and return true. -/
def RateLimiter.consume (rl : RateLimiter) (provider : String) : Bool × RateLimiter :=
  if rl.getRemaining provider ≤ 0 then (false, rl)
  else (true, rl.record provider)

/-- RateLimiter.reset. -/
def RateLimiter.reset (rl : RateLimiter) : RateLimiter :=
  { rl with counts := fun _ => 0 }

/-- n consecutive consume calls for one provider, returning the final state. -/
def consumeRep (provider : String) : ℕ → RateLimiter → RateLimiter
  | 0, rl => rl
  | n + 1, rl => ((consumeRep provider n rl).consume provider).2

/-- One HTTP response to the chat/completions request in OpenAIProvider.complete. -/
inductive LLMResp where
  | success (content : String)
  | failure (status : ℕ)
  deriving DecidableEq, Repr

/-- maxRetries in OpenAIProvider.complete. -/
def maxRetries : ℕ := 3

/-- The backoff in OpenAIProvider.complete: Math.min(1000 * 2 ** attempt, 8000). -/
def backoffMs (attempt : ℕ) : ℕ := min (1000 * 2 ^ attempt) 8000

/-- The statuses OpenAIProvider.complete retries: 429 and 503. -/
def retryableStatus (s : ℕ) : Bool := s == 429 || s == 503

deriving instance DecidableEq for Except

/-- Trace of one OpenAIProvider.complete call: the surfaced outcome (ok
content or the thrown status), the backoff delays actually slept, and the
number of requests sent. -/
structure CompleteTrace where
  outcome : Except ℕ String
  delays : List ℕ
  attempts : ℕ
  deriving DecidableEq, Repr

/-- The retry loop of OpenAIProvider.complete, by fuel on the remaining loop
iterations (fuel = maxRetries - attempt; the zero-fuel arm is the trailing
throw lastError after the loop, unreachable from completeRun). -/
def completeAux (responses : ℕ → LLMResp) : ℕ → ℕ → ℕ → CompleteTrace
  | _, 0, lastErr => { outcome := Except.error lastErr, delays := [], attempts := 0 }
  | attempt, fuel + 1, _ =>
    match responses attempt with
    | LLMResp.success c => { outcome := Except.ok c, delays := [], attempts := 1 }
    | LLMResp.failure s =>
      if retryableStatus s = true ∧ attempt < maxRetries - 1 then
        let t := completeAux responses (attempt + 1) fuel s
        { outcome := t.outcome, delays := backoffMs attempt :: t.delays,
          attempts := t.attempts + 1 }
      else { outcome := Except.error s, delays := [], attempts := 1 }

/-- OpenAIProvider.complete for a given sequence of per-attempt responses. -/
def completeRun (responses : ℕ → LLMResp) : CompleteTrace :=
  completeAux responses 0 maxRetries 0

/-- What one alarm() tick did: whether state was persisted, whether the next
alarm was scheduled, and whether an error was caught and logged. -/
structure TickOutcome where
  persisted : Bool
  rescheduled : Bool
  errorCaught : Bool
  deriving DecidableEq, Repr

/-- The alarm() handler's control flow.  The boolean parameters say whether
each step inside the try block throws when it runs: getClock, runDataGatherer
(run only when the data-poll interval elapsed), runTradingLogic (run only
when the market is open and the analyst interval elapsed), and the final
persist.  The catch arm logs; scheduleNextAlarm runs after the try/catch. -/
def alarmTick (enabled clockThrows duePoll gatherThrows marketOpen dueAnalyst
    tradeThrows persistThrows : Bool) : TickOutcome :=
  if enabled = false then
    { persisted := false, rescheduled := false, errorCaught := false }
  else if clockThrows then
    { persisted := false, rescheduled := true, errorCaught := true }
  else if duePoll && gatherThrows then
    { persisted := false, rescheduled := true, errorCaught := true }
  else if marketOpen && dueAnalyst && tradeThrows then
    { persisted := false, rescheduled := true, errorCaught := true }
  else if persistThrows then
    { persisted := false, rescheduled := true, errorCaught := true }
  else
    { persisted := true, rescheduled := true, errorCaught := false }

/-! Concrete inputs used by witnesses and counterexamples. -/

/-- A position snapshot with the given market value and unrealized P/L. -/
def mkPos (symbol : String) (mv upl : ℚ) : Position :=
  { symbol := symbol, qty := 10, market_value := mv, unrealized_pl := upl,
    current_price := 0, cost_basis := 0 }

/-- An analyzePosition outcome recommending SELL at the given confidence. -/
def sellAnalyses (conf : ℚ) : String → Option PosAnalysis :=
  fun _ => some { action := PosAction.SELL, confidence := conf,
                  reasoning := "sentiment deteriorating" }

/-- A cached ResearchResult with the given verdict, confidence and timestamp. -/
def rrMk (symbol : String) (v : Verdict) (conf : ℚ) (ts : ℤ) : ResearchResult :=
  { symbol := symbol, verdict := v, confidence := conf, reasoning := "cached research",
    red_flags := [], catalysts := [], timestamp := ts }

/-- C1: In the position loop of runTradingLogic the take-profit check is
evaluated first: when unrealized P/L% reaches take_profit_pct the position is
sold exactly once via the take-profit path and no LLM position-analysis call
is issued for it in that tick; a stop-loss sell can occur only when
take-profit did not trigger, and the LLM call and the LLM-override sell can
occur only when neither take-profit nor stop-loss triggered. -/
theorem c1_takeProfit_priority (cfg : AgentConfig) (openaiOn : Bool)
    (analyses : String → Option PosAnalysis) (pos : Position) :
    (cfg.take_profit_pct ≤ plPct pos →
      positionStep cfg openaiOn analyses pos = [PosEvent.sell pos.symbol SellWhy.takeProfit]) ∧
    (PosEvent.sell pos.symbol SellWhy.stopLoss ∈ positionStep cfg openaiOn analyses pos →
      ¬cfg.take_profit_pct ≤ plPct pos ∧ plPct pos ≤ -cfg.stop_loss_pct) ∧
    (PosEvent.llmCall pos.symbol ∈ positionStep cfg openaiOn analyses pos →
      ¬cfg.take_profit_pct ≤ plPct pos ∧ ¬plPct pos ≤ -cfg.stop_loss_pct) ∧
    (PosEvent.sell pos.symbol SellWhy.llmOverride ∈ positionStep cfg openaiOn analyses pos →
      ¬cfg.take_profit_pct ≤ plPct pos ∧ ¬plPct pos ≤ -cfg.stop_loss_pct) := by
  by_cases h1 : cfg.take_profit_pct ≤ plPct pos
  · refine ⟨fun _ => by simp [positionStep, h1], ?_, ?_, ?_⟩ <;>
      { intro hmem; simp [positionStep, h1] at hmem }
  · by_cases h2 : plPct pos ≤ -cfg.stop_loss_pct
    · refine ⟨fun h => absurd h h1, fun _ => ⟨h1, h2⟩, ?_, ?_⟩ <;>
        { intro hmem; simp [positionStep, h1, h2] at hmem }
    · refine ⟨fun h => absurd h h1, ?_, fun _ => ⟨h1, h2⟩, fun _ => ⟨h1, h2⟩⟩
      intro hmem
      exfalso
      cases hopen : openaiOn with
      | false => simp [positionStep, h1, h2, hopen] at hmem
      | true =>
        cases hA : analyses pos.symbol with
        | none => simp [positionStep, h1, h2, hopen, hA] at hmem
        | some a =>
          by_cases hs : a.action = PosAction.SELL ∧ (0.7 : ℚ) ≤ a.confidence
          · simp [positionStep, h1, h2, hopen, hA, hs] at hmem
          · simp [positionStep, h1, h2, hopen, hA, hs] at hmem

/-- Witness for c1_takeProfit_priority: default config, a +9% position with
the LLM simultaneously recommending SELL at confidence 0.9 sells once via
take-profit and emits no LLM call. -/
theorem c1_takeProfit_priority_witness :
    positionStep DEFAULT_CONFIG true (sellAnalyses 0.9) (mkPos "TPX" 109 9) =
      [PosEvent.sell "TPX" SellWhy.takeProfit] :=
  (c1_takeProfit_priority DEFAULT_CONFIG true (sellAnalyses 0.9) (mkPos "TPX" 109 9)).1
    (by norm_num [plPct, mkPos, DEFAULT_CONFIG])

/-- C8 counterexample: the claim says a position held under 30 minutes is
never sold via the LLM recommendation path, but positionStep has no hold
duration among its inputs, and for a position held 5 minutes sitting at +2%
with an LLM SELL at confidence 0.9 the code issues the LLM-path sell. -/
theorem c8_counterexample :
    PosEvent.sell "XYZ" SellWhy.llmOverride ∈
      positionStepAtHold 5 DEFAULT_CONFIG true (sellAnalyses 0.9) (mkPos "XYZ" 102 2) := by
  norm_num [positionStepAtHold, positionStep, plPct, mkPos, DEFAULT_CONFIG, sellAnalyses]

/-- C8 amended: an LLM SELL recommendation with confidence at least 0.7 on a
position that triggered neither take-profit nor stop-loss leads to a sell
order regardless of the position's hold duration; the code has no minimum
hold window. -/
theorem c8_llmSell_ignores_holdWindow (holdMinutes : ℚ) (cfg : AgentConfig)
    (analyses : String → Option PosAnalysis) (pos : Position) (a : PosAnalysis)
    (h1 : ¬cfg.take_profit_pct ≤ plPct pos) (h2 : ¬plPct pos ≤ -cfg.stop_loss_pct)
    (hA : analyses pos.symbol = some a) (hact : a.action = PosAction.SELL)
    (hconf : (0.7 : ℚ) ≤ a.confidence) :
    PosEvent.sell pos.symbol SellWhy.llmOverride ∈
      positionStepAtHold holdMinutes cfg true analyses pos := by
  simp [positionStepAtHold, positionStep, h1, h2, hA, hact, hconf]

/-- Witness for c8_llmSell_ignores_holdWindow: a position held 5 minutes at
+1% with an LLM SELL at confidence 0.8 is sold via the LLM path. -/
theorem c8_llmSell_ignores_holdWindow_witness :
    PosEvent.sell "HLD" SellWhy.llmOverride ∈
      positionStepAtHold 5 DEFAULT_CONFIG true (sellAnalyses 0.8) (mkPos "HLD" 101 1) :=
  c8_llmSell_ignores_holdWindow 5 DEFAULT_CONFIG (sellAnalyses 0.8) (mkPos "HLD" 101 1)
    { action := PosAction.SELL, confidence := 0.8, reasoning := "sentiment deteriorating" }
    (by norm_num [plPct, mkPos, DEFAULT_CONFIG]) (by norm_num [plPct, mkPos, DEFAULT_CONFIG])
    rfl rfl (by norm_num)

/-- C2 counterexample: the claim's formula caps the cash percentage at 20,
but executeBuy applies position_size_pct_of_cash uncapped: with cash 10000,
sizePct 50, confidence 1 and max_position_value 10000 the code orders 5000
while the claim's formula yields 2000. -/
theorem c2_counterexample :
    executeBuy { DEFAULT_CONFIG with position_size_pct_of_cash := 50, max_position_value := 10000 }
        { cash := 10000, equity := 10000, buying_power := 10000 } 1 true
      = BuyOutcome.ordered 5000 true ∧
    specPositionSize 10000 50 1 10000 = 2000 ∧
    (5000 : ℚ) ≠ 2000 := by
  refine ⟨?_, ?_, by norm_num⟩
  · norm_num [executeBuy, roundCents, DEFAULT_CONFIG]
  · norm_num [specPositionSize]

/-- C2 amended: the order size equals min(cash × position_size_pct_of_cash/100
× confidence, max_position_value) with no inner cap at 20, submitted rounded
to cents; whenever the computed size is below 100 dollars the buy is skipped
and no order is issued. -/
theorem c2_executeBuy_sizing (cfg : AgentConfig) (account : Account) (confidence : ℚ)
    (orderOk : Bool) :
    (min (account.cash * (cfg.position_size_pct_of_cash / 100) * confidence)
        cfg.max_position_value < 100 →
      executeBuy cfg account confidence orderOk = BuyOutcome.skipped) ∧
    (¬min (account.cash * (cfg.position_size_pct_of_cash / 100) * confidence)
        cfg.max_position_value < 100 →
      executeBuy cfg account confidence orderOk =
        BuyOutcome.ordered
          (roundCents (min (account.cash * (cfg.position_size_pct_of_cash / 100) * confidence)
            cfg.max_position_value)) orderOk) := by
  constructor <;> intro h <;> simp [executeBuy, h]

/-- Witness for c2_executeBuy_sizing: cash 10000, sizePct 20, confidence 0.8,
max_position_value 2000 orders 1600; cash 500 computes 80 and is skipped. -/
theorem c2_executeBuy_sizing_witness :
    executeBuy DEFAULT_CONFIG { cash := 10000, equity := 10000, buying_power := 10000 } 0.8 true
      = BuyOutcome.ordered 1600 true ∧
    executeBuy DEFAULT_CONFIG { cash := 500, equity := 500, buying_power := 500 } 0.8 true
      = BuyOutcome.skipped := by
  constructor
  · have h := (c2_executeBuy_sizing DEFAULT_CONFIG
      { cash := 10000, equity := 10000, buying_power := 10000 } 0.8 true).2
      (by norm_num [DEFAULT_CONFIG])
    rw [h]
    norm_num [roundCents, DEFAULT_CONFIG]
  · exact (c2_executeBuy_sizing DEFAULT_CONFIG
      { cash := 500, equity := 500, buying_power := 500 } 0.8 true).1
      (by norm_num [DEFAULT_CONFIG])

/-- C7: executeSell on success returns true and removes exactly that symbol's
ResearchResult from the research cache; when closePosition is rejected it
returns false with the cache unchanged; either way it makes exactly one
closePosition call, so there is no retry in the same tick. -/
theorem c7_executeSell_contract (m : ResearchMap) (symbol : String) (closeOk : Bool) :
    (closeOk = true →
      (executeSell m symbol closeOk).returned = true ∧
      rlookup (executeSell m symbol closeOk).research symbol = none ∧
      ∀ t, t ≠ symbol →
        rlookup (executeSell m symbol closeOk).research t = rlookup m t) ∧
    (closeOk = false →
      executeSell m symbol closeOk = { returned := false, research := m, closeAttempts := 1 }) ∧
    (executeSell m symbol closeOk).closeAttempts = 1 := by
  cases closeOk
  · exact ⟨fun h => Bool.noConfusion h, fun _ => rfl, rfl⟩
  · refine ⟨fun _ => ⟨rfl, ?_, ?_⟩, fun h => Bool.noConfusion h, rfl⟩
    · exact rlookup_rdel_self m symbol
    · intro t ht
      exact rlookup_rdel_ne m symbol t ht

/-- Research cache with entries for TSLA and NVDA, used by the c7 witness. -/
def m7 : ResearchMap :=
  [("TSLA", rrMk "TSLA" Verdict.BUY 0.8 0), ("NVDA", rrMk "NVDA" Verdict.WAIT 0.5 0)]

/-- Witness for c7_executeSell_contract: selling TSLA clears its cache entry,
leaves NVDA's entry alone, and a rejected close changes nothing. -/
theorem c7_executeSell_contract_witness :
    (executeSell m7 "TSLA" true).returned = true ∧
    rlookup (executeSell m7 "TSLA" true).research "TSLA" = none ∧
    rlookup (executeSell m7 "TSLA" true).research "NVDA" = rlookup m7 "NVDA" ∧
    executeSell m7 "TSLA" false = { returned := false, research := m7, closeAttempts := 1 } :=
  ⟨((c7_executeSell_contract m7 "TSLA" true).1 rfl).1,
   ((c7_executeSell_contract m7 "TSLA" true).1 rfl).2.1,
   ((c7_executeSell_contract m7 "TSLA" true).1 rfl).2.2 "NVDA" (by decide),
   (c7_executeSell_contract m7 "TSLA" false).2.1 rfl⟩

/-- C3: researchSignal serves a cached ResearchResult younger than 300000 ms
without issuing an LLM call and without touching the cache; a cached entry
aged 300000 ms or more is not served: the LLM is called and a successful
result overwrites the cache entry for that symbol. -/
theorem c3_researchCache (m : ResearchMap) (sig : Signal) (now : ℤ)
    (llm : Option LLMAnalysis) (c : ResearchResult) :
    (rlookup m sig.symbol = some c → now - c.timestamp < CACHE_TTL_MS →
      researchSignal true m sig now llm =
        { result := some c, research := m, llmCalled := false }) ∧
    (rlookup m sig.symbol = some c → ¬now - c.timestamp < CACHE_TTL_MS →
      (researchSignal true m sig now llm).llmCalled = true ∧
      ∀ a, llm = some a →
        researchSignal true m sig now llm =
          { result := some (mkResearchResult sig a now),
            research := rset m sig.symbol (mkResearchResult sig a now),
            llmCalled := true } ∧
        rlookup (researchSignal true m sig now llm).research sig.symbol =
          some (mkResearchResult sig a now)) := by
  constructor
  · intro hc hfresh
    simp [researchSignal, hc, hfresh]
  · intro hc hstale
    constructor
    · cases llm <;> simp [researchSignal, hc, hstale, researchMiss]
    · intro a ha
      subst ha
      constructor
      · simp [researchSignal, hc, hstale, researchMiss]
      · simp [researchSignal, hc, hstale, researchMiss, rlookup_rset_self]

/-- The signal the c3 witness researches. -/
def sigW : Signal :=
  { symbol := "TSLA", source := "stocktwits", sentiment := 0.5, volume := 20,
    bullish := 15, bearish := 5, reason := "StockTwits: 15B/5b (50%)" }

/-- Research cache holding a TSLA entry stamped at time 0, for the c3 witness. -/
def mW : ResearchMap := [("TSLA", rrMk "TSLA" Verdict.BUY 0.8 0)]

/-- A fresh LLM analysis for the c3 witness. -/
def aW : LLMAnalysis :=
  { verdict := Verdict.SKIP, confidence := 0.4, reasoning := "hype",
    red_flags := ["pump pattern"], catalysts := [] }

/-- Witness for c3_researchCache: at age 299999 ms the cached entry is served
with no LLM call; at age 300000 ms the LLM is called and its result
overwrites the TSLA entry. -/
theorem c3_researchCache_witness :
    researchSignal true mW sigW 299999 (some aW) =
      { result := some (rrMk "TSLA" Verdict.BUY 0.8 0), research := mW, llmCalled := false } ∧
    (researchSignal true mW sigW 300000 (some aW)).llmCalled = true ∧
    rlookup (researchSignal true mW sigW 300000 (some aW)).research "TSLA" =
      some (mkResearchResult sigW aW 300000) :=
  ⟨(c3_researchCache mW sigW 299999 (some aW) (rrMk "TSLA" Verdict.BUY 0.8 0)).1
      rfl (by decide),
   ((c3_researchCache mW sigW 300000 (some aW) (rrMk "TSLA" Verdict.BUY 0.8 0)).2
      rfl (by decide)).1,
   (((c3_researchCache mW sigW 300000 (some aW) (rrMk "TSLA" Verdict.BUY 0.8 0)).2
      rfl (by decide)).2 aW rfl).2⟩

/-- C5 counterexample: the claim says state is persisted at the end of the
tick even when a step inside throws, but when runDataGatherer throws on an
enabled agent the persist call is skipped (it sits inside the try block after
the step that threw); the error is caught and the next tick is rescheduled. -/
theorem c5_counterexample :
    (alarmTick true false true true true true false false).persisted = false ∧
    (alarmTick true false true true true true false false).rescheduled = true ∧
    (alarmTick true false true true true true false false).errorCaught = true := by
  decide

/-- C5 amended: on an enabled agent every tick reschedules the next alarm,
including after an error; any step error is caught (never propagated); but
the state is persisted at the end only when no step inside the tick threw. -/
theorem c5_alarmTick_contract (clockThrows duePoll gatherThrows marketOpen
    dueAnalyst tradeThrows persistThrows : Bool) :
    (alarmTick true clockThrows duePoll gatherThrows marketOpen dueAnalyst
        tradeThrows persistThrows).rescheduled = true ∧
    ((alarmTick true clockThrows duePoll gatherThrows marketOpen dueAnalyst
        tradeThrows persistThrows).persisted = true ↔
      clockThrows = false ∧ (duePoll && gatherThrows) = false ∧
      (marketOpen && dueAnalyst && tradeThrows) = false ∧ persistThrows = false) ∧
    (alarmTick true clockThrows duePoll gatherThrows marketOpen dueAnalyst
        tradeThrows persistThrows).errorCaught =
      !(alarmTick true clockThrows duePoll gatherThrows marketOpen dueAnalyst
        tradeThrows persistThrows).persisted := by
  cases clockThrows <;> cases duePoll <;> cases gatherThrows <;> cases marketOpen <;>
    cases dueAnalyst <;> cases tradeThrows <;> cases persistThrows <;> decide

theorem consume_budgets_eq (rl : RateLimiter) (p : String) :
    ((rl.consume p).2).budgets = rl.budgets := by
  by_cases h : rl.getRemaining p ≤ 0 <;> simp [RateLimiter.consume, RateLimiter.record, h]

theorem consumeRep_budgets (p : String) (n : ℕ) (rl : RateLimiter) :
    (consumeRep p n rl).budgets = rl.budgets := by
  induction n with
  | zero => rfl
  | succ n ih =>
    simp only [consumeRep, consume_budgets_eq, ih]

theorem consume_of_lt (rl : RateLimiter) (p : String) (B : ℕ)
    (hB : rl.budgets p = some B) (h : rl.counts p < B) :
    rl.consume p = (true, rl.record p) := by
  have hrem : rl.getRemaining p = B - rl.counts p := by
    unfold RateLimiter.getRemaining
    rw [hB]
    rfl
  unfold RateLimiter.consume
  rw [hrem, if_neg (by omega)]

theorem consume_of_ge (rl : RateLimiter) (p : String) (B : ℕ)
    (hB : rl.budgets p = some B) (h : B ≤ rl.counts p) :
    rl.consume p = (false, rl) := by
  have hrem : rl.getRemaining p = B - rl.counts p := by
    unfold RateLimiter.getRemaining
    rw [hB]
    rfl
  unfold RateLimiter.consume
  rw [hrem, if_pos (by omega)]

theorem record_counts_self (rl : RateLimiter) (p : String) :
    (rl.record p).counts p = rl.counts p + 1 := by
  simp [RateLimiter.record]

theorem consumeRep_counts (budgets : String → Option ℕ) (p : String) (B : ℕ)
    (hB : budgets p = some B) (n : ℕ) :
    (consumeRep p n (RateLimiter.init budgets)).counts p = min n B := by
  induction n with
  | zero => simp [consumeRep, RateLimiter.init]
  | succ n ih =>
    have hbud : (consumeRep p n (RateLimiter.init budgets)).budgets p = some B := by
      rw [consumeRep_budgets]
      exact hB
    by_cases h : (consumeRep p n (RateLimiter.init budgets)).counts p < B
    · rw [consumeRep, consume_of_lt _ p B hbud h]
      show ((consumeRep p n (RateLimiter.init budgets)).record p).counts p = min (n + 1) B
      rw [record_counts_self, ih]
      rw [ih] at h
      omega
    · push_neg at h
      rw [consumeRep, consume_of_ge _ p B hbud h]
      show (consumeRep p n (RateLimiter.init budgets)).counts p = min (n + 1) B
      rw [ih]
      rw [ih] at h
      omega

/-- A budget table configuring provider fmp with budget 0. -/
def zeroBudgets : String → Option ℕ := fun provider =>
  if provider = "fmp" then some 0 else none

/-- C6 counterexample: for a provider configured with budget 0 the claim's
final part fails: after reset() all counts are zero yet consume still
returns false, because the budget itself is zero. -/
theorem c6_counterexample :
    zeroBudgets "fmp" = some 0 ∧
    ((RateLimiter.init zeroBudgets).consume "fmp").1 = false ∧
    (((RateLimiter.init zeroBudgets).reset).consume "fmp").1 = false :=
  ⟨rfl, rfl, rfl⟩

/-- C6 amended: for every provider with configured budget B at least 1, the
first B consecutive consume calls return true and each records the call, the
(B+1)-th returns false leaving the recorded count at B, and after reset()
the counts are zero so consume returns true again. -/
theorem c6_rateLimiter (budgets : String → Option ℕ) (p : String) (B : ℕ)
    (hB : budgets p = some B) (hpos : 0 < B) :
    (∀ k, k < B → ((consumeRep p k (RateLimiter.init budgets)).consume p).1 = true) ∧
    ((consumeRep p B (RateLimiter.init budgets)).consume p).1 = false ∧
    (consumeRep p B (RateLimiter.init budgets)).getCount p = B ∧
    (consumeRep p (B + 1) (RateLimiter.init budgets)).getCount p = B ∧
    (((consumeRep p (B + 1) (RateLimiter.init budgets)).reset).consume p).1 = true := by
  have hbud : ∀ n, (consumeRep p n (RateLimiter.init budgets)).budgets p = some B :=
    fun n => by rw [consumeRep_budgets]; exact hB
  refine ⟨?_, ?_, ?_, ?_, ?_⟩
  · intro k hk
    have hc : (consumeRep p k (RateLimiter.init budgets)).counts p < B := by
      rw [consumeRep_counts budgets p B hB]
      omega
    rw [consume_of_lt _ p B (hbud k) hc]
  · have hc : B ≤ (consumeRep p B (RateLimiter.init budgets)).counts p := by
      rw [consumeRep_counts budgets p B hB]
      omega
    rw [consume_of_ge _ p B (hbud B) hc]
  · show (consumeRep p B (RateLimiter.init budgets)).counts p = B
    rw [consumeRep_counts budgets p B hB]
    omega
  · show (consumeRep p (B + 1) (RateLimiter.init budgets)).counts p = B
    rw [consumeRep_counts budgets p B hB]
    omega
  · have hrb : ((consumeRep p (B + 1) (RateLimiter.init budgets)).reset).budgets p = some B :=
      hbud (B + 1)
    have hrc : ((consumeRep p (B + 1) (RateLimiter.init budgets)).reset).counts p = 0 := rfl
    rw [consume_of_lt _ p B hrb (by rw [hrc]; omega)]

/-- Witness for c6_rateLimiter: provider fmp with its configured budget 10;
the 10th call (index 9) returns true, the 11th returns false, the count
stays at 10, and consume succeeds again after reset. -/
theorem c6_rateLimiter_witness :
    ((consumeRep "fmp" 9 (RateLimiter.init RATE_LIMIT_BUDGETS)).consume "fmp").1 = true ∧
    ((consumeRep "fmp" 10 (RateLimiter.init RATE_LIMIT_BUDGETS)).consume "fmp").1 = false ∧
    (consumeRep "fmp" 11 (RateLimiter.init RATE_LIMIT_BUDGETS)).getCount "fmp" = 10 ∧
    (((consumeRep "fmp" 11 (RateLimiter.init RATE_LIMIT_BUDGETS)).reset).consume "fmp").1 = true := by
  have h := c6_rateLimiter RATE_LIMIT_BUDGETS "fmp" 10 rfl (by omega)
  exact ⟨h.1 9 (by omega), h.2.1, h.2.2.2.1, h.2.2.2.2⟩

/-- Enumeration of OpenAIProvider.complete by the shape of the first three
responses: at most two backoff sleeps can ever happen because the retry
condition requires attempt < maxRetries - 1. -/
theorem completeRun_cases (responses : ℕ → LLMResp) :
    completeRun responses =
      match responses 0 with
      | LLMResp.success c => { outcome := Except.ok c, delays := [], attempts := 1 }
      | LLMResp.failure s0 =>
        if retryableStatus s0 = true then
          match responses 1 with
          | LLMResp.success c => { outcome := Except.ok c, delays := [1000], attempts := 2 }
          | LLMResp.failure s1 =>
            if retryableStatus s1 = true then
              match responses 2 with
              | LLMResp.success c =>
                { outcome := Except.ok c, delays := [1000, 2000], attempts := 3 }
              | LLMResp.failure s2 =>
                { outcome := Except.error s2, delays := [1000, 2000], attempts := 3 }
            else { outcome := Except.error s1, delays := [1000], attempts := 2 }
        else { outcome := Except.error s0, delays := [], attempts := 1 } := by
  rcases h0 : responses 0 with c0 | s0
  · simp [completeRun, completeAux, maxRetries, h0]
  · rcases h1 : responses 1 with c1 | s1 <;> rcases h2 : responses 2 with c2 | s2 <;>
      by_cases hr0 : retryableStatus s0 = true <;>
      norm_num [completeRun, completeAux, maxRetries, backoffMs, h0, h1, h2, hr0] <;>
      split_ifs <;> norm_num

/-- C9 counterexample: three consecutive 429 responses produce backoff
delays of 1000 ms and 2000 ms only — the claimed third 4000 ms delay never
occurs, because the retry condition attempt < maxRetries - 1 forbids a sleep
after the final attempt. -/
theorem c9_counterexample :
    completeRun (fun _ => LLMResp.failure 429) =
      { outcome := Except.error 429, delays := [1000, 2000], attempts := 3 } ∧
    ([1000, 2000] : List ℕ) ≠ [1000, 2000, 4000] :=
  ⟨rfl, by decide⟩

theorem completeRun_ok0 (responses : ℕ → LLMResp) (c : String)
    (h0 : responses 0 = LLMResp.success c) :
    completeRun responses = { outcome := Except.ok c, delays := [], attempts := 1 } := by
  rw [completeRun_cases, h0]

theorem completeRun_err0 (responses : ℕ → LLMResp) (s : ℕ)
    (h0 : responses 0 = LLMResp.failure s) (hr : retryableStatus s = false) :
    completeRun responses = { outcome := Except.error s, delays := [], attempts := 1 } := by
  rw [completeRun_cases, h0]
  simp [hr]

theorem completeRun_ok1 (responses : ℕ → LLMResp) (s0 : ℕ) (c : String)
    (h0 : responses 0 = LLMResp.failure s0) (hr0 : retryableStatus s0 = true)
    (h1 : responses 1 = LLMResp.success c) :
    completeRun responses = { outcome := Except.ok c, delays := [1000], attempts := 2 } := by
  rw [completeRun_cases, h0]
  simp [hr0, h1]

theorem completeRun_err1 (responses : ℕ → LLMResp) (s0 s1 : ℕ)
    (h0 : responses 0 = LLMResp.failure s0) (hr0 : retryableStatus s0 = true)
    (h1 : responses 1 = LLMResp.failure s1) (hr1 : retryableStatus s1 = false) :
    completeRun responses = { outcome := Except.error s1, delays := [1000], attempts := 2 } := by
  rw [completeRun_cases, h0]
  simp [hr0, h1, hr1]

theorem completeRun_ok2 (responses : ℕ → LLMResp) (s0 s1 : ℕ) (c : String)
    (h0 : responses 0 = LLMResp.failure s0) (hr0 : retryableStatus s0 = true)
    (h1 : responses 1 = LLMResp.failure s1) (hr1 : retryableStatus s1 = true)
    (h2 : responses 2 = LLMResp.success c) :
    completeRun responses =
      { outcome := Except.ok c, delays := [1000, 2000], attempts := 3 } := by
  rw [completeRun_cases, h0]
  simp [hr0, h1, hr1, h2]

theorem completeRun_err2 (responses : ℕ → LLMResp) (s0 s1 s2 : ℕ)
    (h0 : responses 0 = LLMResp.failure s0) (hr0 : retryableStatus s0 = true)
    (h1 : responses 1 = LLMResp.failure s1) (hr1 : retryableStatus s1 = true)
    (h2 : responses 2 = LLMResp.failure s2) :
    completeRun responses =
      { outcome := Except.error s2, delays := [1000, 2000], attempts := 3 } := by
  rw [completeRun_cases, h0]
  simp [hr0, h1, hr1, h2]

/-- C9 amended: a 429 or 503 response is retried with exponential backoff
min(1000·2^attempt, 8000) ms, giving delays of 1s then 2s, for at most 3
total attempts, after which the error is surfaced; every other non-2xx
response is surfaced immediately without retry.  The per-attempt clauses
quantify over every reached attempt: a retryable failure at attempt i < 2
always triggers another attempt after sleeping backoffMs i; the first
non-retryable failure at any reached attempt i surfaces immediately with
exactly i + 1 requests; any failure at attempt 2 is surfaced. -/
theorem c9_retry_contract (responses : ℕ → LLMResp) :
    (completeRun responses).attempts ≤ 3 ∧
    (completeRun responses).delays =
      [1000, 2000].take ((completeRun responses).attempts - 1) ∧
    (∀ s, responses 0 = LLMResp.failure s → retryableStatus s = false →
      completeRun responses = { outcome := Except.error s, delays := [], attempts := 1 }) ∧
    ((∀ i, i < 3 → ∃ s, responses i = LLMResp.failure s ∧ retryableStatus s = true) →
      (∃ s, (completeRun responses).outcome = Except.error s) ∧
      (completeRun responses).attempts = 3) ∧
    (∀ i, i < 3 →
      (∀ j, j < i → ∃ t, responses j = LLMResp.failure t ∧ retryableStatus t = true) →
      ∀ s, responses i = LLMResp.failure s → retryableStatus s = false →
        completeRun responses =
          { outcome := Except.error s, delays := [1000, 2000].take i, attempts := i + 1 }) ∧
    (∀ i, i < 2 →
      (∀ j, j < i → ∃ t, responses j = LLMResp.failure t ∧ retryableStatus t = true) →
      ∀ s, responses i = LLMResp.failure s → retryableStatus s = true →
        i + 2 ≤ (completeRun responses).attempts ∧
        (completeRun responses).delays[i]? = some (backoffMs i)) ∧
    ((∀ j, j < 2 → ∃ t, responses j = LLMResp.failure t ∧ retryableStatus t = true) →
      ∀ s, responses 2 = LLMResp.failure s →
        completeRun responses =
          { outcome := Except.error s, delays := [1000, 2000], attempts := 3 }) := by
  have key : (completeRun responses).attempts ≤ 3 ∧
      (completeRun responses).delays =
        [1000, 2000].take ((completeRun responses).attempts - 1) := by
    rcases h0 : responses 0 with c0 | s0
    · simp [completeRun_ok0 responses c0 h0]
    · cases hr0 : retryableStatus s0
      · simp [completeRun_err0 responses s0 h0 hr0]
      · rcases h1 : responses 1 with c1 | s1
        · simp [completeRun_ok1 responses s0 c1 h0 hr0 h1]
        · cases hr1 : retryableStatus s1
          · simp [completeRun_err1 responses s0 s1 h0 hr0 h1 hr1]
          · rcases h2 : responses 2 with c2 | s2
            · simp [completeRun_ok2 responses s0 s1 c2 h0 hr0 h1 hr1 h2]
            · simp [completeRun_err2 responses s0 s1 s2 h0 hr0 h1 hr1 h2]
  refine ⟨key.1, key.2, fun s h0 hr => completeRun_err0 responses s h0 hr, ?_, ?_, ?_, ?_⟩
  · intro hall
    obtain ⟨s0, h0, hr0⟩ := hall 0 (by omega)
    obtain ⟨s1, h1, hr1⟩ := hall 1 (by omega)
    obtain ⟨s2, h2, _⟩ := hall 2 (by omega)
    rw [completeRun_err2 responses s0 s1 s2 h0 hr0 h1 hr1 h2]
    exact ⟨⟨s2, rfl⟩, rfl⟩
  · intro i hi hprev s hs hr
    interval_cases i
    · exact completeRun_err0 responses s hs hr
    · obtain ⟨t0, h0, hr0⟩ := hprev 0 (by omega)
      exact completeRun_err1 responses t0 s h0 hr0 hs hr
    · obtain ⟨t0, h0, hr0⟩ := hprev 0 (by omega)
      obtain ⟨t1, h1, hr1⟩ := hprev 1 (by omega)
      exact completeRun_err2 responses t0 t1 s h0 hr0 h1 hr1 hs
  · intro i hi hprev s hs hr
    interval_cases i
    · rcases h1 : responses 1 with c1 | s1
      · rw [completeRun_ok1 responses s c1 hs hr h1]
        exact ⟨by norm_num, rfl⟩
      · cases hr1 : retryableStatus s1
        · rw [completeRun_err1 responses s s1 hs hr h1 hr1]
          exact ⟨by norm_num, rfl⟩
        · rcases h2 : responses 2 with c2 | s2
          · rw [completeRun_ok2 responses s s1 c2 hs hr h1 hr1 h2]
            exact ⟨by norm_num, rfl⟩
          · rw [completeRun_err2 responses s s1 s2 hs hr h1 hr1 h2]
            exact ⟨by norm_num, rfl⟩
    · obtain ⟨t0, h0, hr0⟩ := hprev 0 (by omega)
      rcases h2 : responses 2 with c2 | s2
      · rw [completeRun_ok2 responses t0 s c2 h0 hr0 hs hr h2]
        exact ⟨by norm_num, rfl⟩
      · rw [completeRun_err2 responses t0 s s2 h0 hr0 hs hr h2]
        exact ⟨by norm_num, rfl⟩
  · intro hprev s hs
    obtain ⟨t0, h0, hr0⟩ := hprev 0 (by omega)
    obtain ⟨t1, h1, hr1⟩ := hprev 1 (by omega)
    exact completeRun_err2 responses t0 t1 s h0 hr0 h1 hr1 hs

/-- A response sequence whose first attempt fails with status 500. -/
def resp500 : ℕ → LLMResp :=
  fun i => if i = 0 then LLMResp.failure 500 else LLMResp.success "parsed"

/-- A response sequence with a 429 on the first attempt, then success. -/
def resp429ok : ℕ → LLMResp :=
  fun i => if i = 0 then LLMResp.failure 429 else LLMResp.success "recovered"

/-- A response sequence with a 429 on the first attempt, then a 500. -/
def resp429then500 : ℕ → LLMResp :=
  fun i => if i = 0 then LLMResp.failure 429 else LLMResp.failure 500

/-- Witness for c9_retry_contract: a first-attempt 500 is surfaced with no
backoff and no retry; a first-attempt 429 is retried after the 1000 ms
backoff even when the next attempt succeeds; a 500 arriving after a retried
429 is surfaced immediately on the second attempt. -/
theorem c9_retry_contract_witness :
    completeRun resp500 = { outcome := Except.error 500, delays := [], attempts := 1 } ∧
    2 ≤ (completeRun resp429ok).attempts ∧
    (completeRun resp429ok).delays[0]? = some (backoffMs 0) ∧
    completeRun resp429then500 =
      { outcome := Except.error 500, delays := [1000], attempts := 2 } := by
  have hprev1 : ∀ j, j < 1 →
      ∃ t, resp429then500 j = LLMResp.failure t ∧ retryableStatus t = true := by
    intro j hj
    have hj0 : j = 0 := by omega
    subst hj0
    exact ⟨429, rfl, rfl⟩
  refine ⟨(c9_retry_contract resp500).2.2.1 500 rfl rfl, ?_, ?_, ?_⟩
  · exact ((c9_retry_contract resp429ok).2.2.2.2.2.1 0 (by omega)
      (fun j hj => absurd hj (by omega)) 429 rfl rfl).1
  · exact ((c9_retry_contract resp429ok).2.2.2.2.2.1 0 (by omega)
      (fun j hj => absurd hj (by omega)) 429 rfl rfl).2
  · exact (c9_retry_contract resp429then500).2.2.2.2.1 1 (by omega) hprev1 500 rfl rfl

/-- A StockTwits signal with the given symbol and sentiment. -/
def mkSig (symbol : String) (sent : ℚ) : Signal :=
  { symbol := symbol, source := "stocktwits", sentiment := sent, volume := 10,
    bullish := 5, bearish := 5, reason := "StockTwits stream" }

/-- Six qualifying signals, the highest-sentiment one for a held symbol. -/
def sigsC4 : List Signal :=
  [mkSig "HH" 0.9, mkSig "A" 0.8, mkSig "B" 0.7, mkSig "C" 0.6,
   mkSig "D" 0.5, mkSig "E" 0.4]

/-- C4 counterexample: with six signals at or above the threshold, the
highest-sentiment one held, the code's research batch keeps the held symbol
and caps at 5 (the call site passes limit 5), while the claim's gate drops
the held symbol and caps at 10 — the two selections differ. -/
theorem c4_counterexample :
    runDataGathererBatch DEFAULT_CONFIG sigsC4 =
      [mkSig "HH" 0.9, mkSig "A" 0.8, mkSig "B" 0.7, mkSig "C" 0.6, mkSig "D" 0.5] ∧
    mkSig "HH" 0.9 ∈ runDataGathererBatch DEFAULT_CONFIG sigsC4 ∧
    mkSig "HH" 0.9 ∉ specResearchGate ["HH"] DEFAULT_CONFIG sigsC4 ∧
    (runDataGathererBatch DEFAULT_CONFIG sigsC4).length = 5 ∧
    (specResearchGate ["HH"] DEFAULT_CONFIG sigsC4).length = 5 ∧
    runDataGathererBatch DEFAULT_CONFIG sigsC4 ≠ specResearchGate ["HH"] DEFAULT_CONFIG sigsC4 := by
  have e1 : runDataGathererBatch DEFAULT_CONFIG sigsC4 =
      [mkSig "HH" 0.9, mkSig "A" 0.8, mkSig "B" 0.7, mkSig "C" 0.6, mkSig "D" 0.5] := by
    norm_num [runDataGathererBatch, researchCandidates, List.insertionSort,
      List.orderedInsert, sentGE, sigsC4, mkSig, DEFAULT_CONFIG, List.filter]
  have e2 : specResearchGate ["HH"] DEFAULT_CONFIG sigsC4 =
      [mkSig "A" 0.8, mkSig "B" 0.7, mkSig "C" 0.6, mkSig "D" 0.5, mkSig "E" 0.4] := by
    norm_num [specResearchGate, List.insertionSort, List.orderedInsert, sentGE,
      sigsC4, mkSig, DEFAULT_CONFIG, List.filter]
  refine ⟨e1, ?_⟩
  rw [e1, e2]
  norm_num [mkSig, Signal.mk.injEq]

/-- C4 amended: the per-signal research gate selects the highest-sentiment
signals with sentiment at least min_sentiment_score (inclusive), with no
filter on held symbols, sorted by sentiment descending, and the
runDataGatherer call site caps the batch at 5: every selected signal comes
from the cache and meets the threshold, every signal below the threshold is
excluded, when at most 5 signals qualify every qualifying signal is
selected, the batch is sorted by sentiment descending, every qualifying
signal left out has sentiment at most that of every selected signal, and
when 5 or more signals qualify the batch has exactly 5. -/
theorem c4_researchGate (cfg : AgentConfig) (signalCache : List Signal) :
    (runDataGathererBatch cfg signalCache).length ≤ 5 ∧
    (∀ s, s ∈ runDataGathererBatch cfg signalCache →
      s ∈ signalCache ∧ cfg.min_sentiment_score ≤ s.sentiment) ∧
    (∀ s, s ∈ signalCache → s.sentiment < cfg.min_sentiment_score →
      s ∉ runDataGathererBatch cfg signalCache) ∧
    ((signalCache.filter (fun s => decide (cfg.min_sentiment_score ≤ s.sentiment))).length ≤ 5 →
      ∀ s, s ∈ signalCache → cfg.min_sentiment_score ≤ s.sentiment →
        s ∈ runDataGathererBatch cfg signalCache) ∧
    List.Sorted sentGE (runDataGathererBatch cfg signalCache) ∧
    (∀ x, x ∈ runDataGathererBatch cfg signalCache →
      ∀ y, y ∈ signalCache → cfg.min_sentiment_score ≤ y.sentiment →
        y ∉ runDataGathererBatch cfg signalCache → y.sentiment ≤ x.sentiment) ∧
    (5 ≤ (signalCache.filter (fun s => decide (cfg.min_sentiment_score ≤ s.sentiment))).length →
      (runDataGathererBatch cfg signalCache).length = 5) := by
  have hsub : ∀ s, s ∈ runDataGathererBatch cfg signalCache →
      s ∈ signalCache ∧ cfg.min_sentiment_score ≤ s.sentiment := by
    intro s hs
    simp only [runDataGathererBatch, researchCandidates] at hs
    have h1 := List.take_subset _ _ hs
    rw [List.mem_insertionSort, List.mem_filter] at h1
    exact ⟨h1.1, of_decide_eq_true h1.2⟩
  have hsorted : List.Sorted sentGE
      (List.insertionSort sentGE
        (signalCache.filter (fun s => decide (cfg.min_sentiment_score ≤ s.sentiment)))) :=
    List.sorted_insertionSort sentGE _
  refine ⟨?_, hsub, fun s _ hlt hmem => absurd (hsub s hmem).2 (not_le.mpr hlt), ?_, ?_, ?_, ?_⟩
  · simp only [runDataGathererBatch, researchCandidates]
    exact List.length_take_le _ _
  · intro hlen s hsc hge
    simp only [runDataGathererBatch, researchCandidates]
    rw [List.take_of_length_le]
    · rw [List.mem_insertionSort, List.mem_filter]
      exact ⟨hsc, decide_eq_true hge⟩
    · rw [List.length_insertionSort]
      exact hlen
  · simp only [runDataGathererBatch, researchCandidates]
    exact List.Pairwise.sublist (List.take_sublist 5 _) hsorted
  · intro x hx y hy hyq hynot
    simp only [runDataGathererBatch, researchCandidates] at hx hynot
    set l := List.insertionSort sentGE
      (signalCache.filter (fun s => decide (cfg.min_sentiment_score ≤ s.sentiment))) with hldef
    have hyl : y ∈ l.take 5 ++ l.drop 5 := by
      rw [List.take_append_drop]
      rw [List.mem_insertionSort, List.mem_filter]
      exact ⟨hy, decide_eq_true hyq⟩
    have hydrop : y ∈ l.drop 5 := by
      rcases List.mem_append.mp hyl with h | h
      · exact absurd h hynot
      · exact h
    have hp : List.Pairwise sentGE (l.take 5 ++ l.drop 5) := by
      rw [List.take_append_drop]
      exact hsorted
    exact (List.pairwise_append.mp hp).2.2 x hx y hydrop
  · intro hlen
    simp only [runDataGathererBatch, researchCandidates]
    rw [List.length_take, List.length_insertionSort]
    omega

/-- Witness for c4_researchGate: at the default threshold 0.3 a signal at
0.35 is selected and a signal at 0.25 is excluded; on the six-signal cache
the left-out qualifying signal E (0.4) ranks at most the selected A (0.8)
and the batch has exactly 5 entries. -/
theorem c4_researchGate_witness :
    mkSig "INC" 0.35 ∈ runDataGathererBatch DEFAULT_CONFIG [mkSig "INC" 0.35, mkSig "EXC" 0.25] ∧
    mkSig "EXC" 0.25 ∉ runDataGathererBatch DEFAULT_CONFIG [mkSig "INC" 0.35, mkSig "EXC" 0.25] ∧
    (mkSig "E" 0.4).sentiment ≤ (mkSig "A" 0.8).sentiment ∧
    (runDataGathererBatch DEFAULT_CONFIG sigsC4).length = 5 :=
  ⟨(c4_researchGate DEFAULT_CONFIG [mkSig "INC" 0.35, mkSig "EXC" 0.25]).2.2.2.1
      (by norm_num [List.filter, mkSig, DEFAULT_CONFIG])
      (mkSig "INC" 0.35) (by simp) (by norm_num [mkSig, DEFAULT_CONFIG]),
   (c4_researchGate DEFAULT_CONFIG [mkSig "INC" 0.35, mkSig "EXC" 0.25]).2.2.1
      (mkSig "EXC" 0.25) (by simp) (by norm_num [mkSig, DEFAULT_CONFIG]),
   (c4_researchGate DEFAULT_CONFIG sigsC4).2.2.2.2.2.1
      (mkSig "A" 0.8)
      (by norm_num [runDataGathererBatch, researchCandidates, List.insertionSort,
        List.orderedInsert, sentGE, sigsC4, mkSig, DEFAULT_CONFIG, List.filter,
        Signal.mk.injEq])
      (mkSig "E" 0.4) (by simp [sigsC4]) (by norm_num [mkSig, DEFAULT_CONFIG])
      (by norm_num [runDataGathererBatch, researchCandidates, List.insertionSort,
        List.orderedInsert, sentGE, sigsC4, mkSig, DEFAULT_CONFIG, List.filter,
        Signal.mk.injEq]),
   (c4_researchGate DEFAULT_CONFIG sigsC4).2.2.2.2.2.2
      (by norm_num [List.filter, sigsC4, mkSig, DEFAULT_CONFIG])⟩

/-- C10: the buy half of runTradingLogic issues at most one buy attempt per
tick, and any attempted buy is for an opportunity of maximal confidence
among the qualifying cached research results (verdict BUY, confidence at
least min_analyst_confidence, not held, younger than 600000 ms). -/
theorem c10_singleBuy (cfg : AgentConfig) (research : List ResearchResult)
    (held : List String) (now : ℤ) (positionsCount : ℕ) (account : Account)
    (orderOk : String → Bool) :
    (tradingBuyPhase cfg research held now positionsCount account orderOk).length ≤ 1 ∧
    (∀ r, r ∈ buyOpportunities cfg research held now ↔
      r ∈ research ∧ r.verdict = Verdict.BUY ∧
      cfg.min_analyst_confidence ≤ r.confidence ∧ r.symbol ∉ held ∧
      now - r.timestamp < 600000) ∧
    (∀ p, p ∈ tradingBuyPhase cfg research held now positionsCount account orderOk →
      ∃ o, o ∈ buyOpportunities cfg research held now ∧
        p = (o.symbol, executeBuy cfg account o.confidence (orderOk o.symbol)) ∧
        ∀ r, r ∈ buyOpportunities cfg research held now → r.confidence ≤ o.confidence) := by
  have hmemiff : ∀ r, r ∈ buyOpportunities cfg research held now ↔
      r ∈ research ∧ r.verdict = Verdict.BUY ∧
      cfg.min_analyst_confidence ≤ r.confidence ∧ r.symbol ∉ held ∧
      now - r.timestamp < 600000 := by
    intro r
    simp only [buyOpportunities, List.mem_insertionSort, List.mem_filter,
      decide_eq_true_eq, and_assoc]
  have hsort : List.Sorted confGE (buyOpportunities cfg research held now) := by
    unfold buyOpportunities
    exact List.sorted_insertionSort confGE _
  refine ⟨?_, hmemiff, ?_⟩
  · unfold tradingBuyPhase
    by_cases hfull : cfg.max_positions ≤ positionsCount
    · simp [hfull]
    · simp only [hfull, if_false, List.length_map]
      exact List.length_take_le _ _
  · intro p hp
    unfold tradingBuyPhase at hp
    by_cases hfull : cfg.max_positions ≤ positionsCount
    · rw [if_pos hfull] at hp
      exact absurd hp (List.not_mem_nil p)
    · rw [if_neg hfull, List.mem_map] at hp
      obtain ⟨o, ho, hf⟩ := hp
      cases hl : buyOpportunities cfg research held now with
      | nil =>
        rw [hl] at ho
        exact absurd ho (List.not_mem_nil o)
      | cons a tl =>
        rw [hl] at ho
        simp only [List.take, List.take_zero, List.mem_singleton] at ho
        subst ho
        refine ⟨o, List.mem_cons_self o tl, hf.symm, ?_⟩
        intro r hr
        rcases List.mem_cons.mp hr with h | h
        · rw [h]
        · rw [hl] at hsort
          exact List.rel_of_sorted_cons hsort r h

/-- Cached research the c10 witness trades on: two fresh BUY verdicts at
confidences 0.7 and 0.9. -/
def rsC10 : List ResearchResult :=
  [rrMk "B7" Verdict.BUY 0.7 0, rrMk "B9" Verdict.BUY 0.9 0]

/-- The account snapshot for the c10 witness. -/
def accC10 : Account := { cash := 10000, equity := 10000, buying_power := 10000 }

/-- Witness for c10_singleBuy: with two qualifying opportunities only the
higher-confidence one (B9) is bought, in a single order of 1800. -/
theorem c10_singleBuy_witness :
    (tradingBuyPhase DEFAULT_CONFIG rsC10 [] 0 0 accC10 (fun _ => true)).length ≤ 1 ∧
    tradingBuyPhase DEFAULT_CONFIG rsC10 [] 0 0 accC10 (fun _ => true) =
      [("B9", BuyOutcome.ordered 1800 true)] := by
  constructor
  · exact (c10_singleBuy DEFAULT_CONFIG rsC10 [] 0 0 accC10 (fun _ => true)).1
  · norm_num [tradingBuyPhase, buyOpportunities, executeBuy, roundCents,
      List.insertionSort, List.orderedInsert, confGE, List.filter, rsC10,
      rrMk, accC10, DEFAULT_CONFIG]

end Mahoraga
